import Mathlib

/-!
Shallow embedding of the Kon-Agent-export core: the in-memory metric store
(package storage, MemoryStorage), the sample validator/normalizer (package
processor, DefaultProcessor) and the per-frame message handling of the QUIC
server (handleUniStream).

Modelling conventions:
- Go time.Time instants and time.Duration values are Int nanoseconds since
  the epoch (time.Unix(0, n) carries exactly n nanoseconds).
- Go slices are Lean lists; a Go runtime panic (slice bounds out of range,
  make with negative capacity, nil-pointer dereference) is modelled as
  Option.none of the operation.
- MemoryStorage.maxSize is a Nat: NewMemoryStorage performs
  make with capacity maxSize, which panics for negative maxSize, so every
  reachable store has a nonnegative maxSize.
- CleanExpired reads time.Now(); the embedding passes that instant in
  explicitly as a parameter.
-/

namespace KonAgent

/-- Modelled from the spec: the metric-type enum of the generated protocol
package (absent from src) is an enum over a fixed bounded range; the enum is
its underlying integer value. -/
abbrev MetricType := Int

/-- Modelled from the spec: first value of the bounded metric-type range
(protocol.MetricType_CPU_USAGE). -/
def MetricType_CPU_USAGE : MetricType := 0

/-- Modelled from the spec: last value of the bounded metric-type range
(protocol.MetricType_EBPF_RAW). -/
def MetricType_EBPF_RAW : MetricType := 7

/-- Modelled from the spec: canonical string rendering of a metric type
(protobuf enum String method of the generated protocol package). -/
def metricTypeString (t : MetricType) : String :=
  if t = 0 then "CPU_USAGE"
  else if t = 7 then "EBPF_RAW"
  else "METRIC_TYPE_" ++ toString t

/-- protocol.Metric: the single-sample wire form, with the fields the core
reads (Name, Timestamp in epoch milliseconds, Value, Labels, Type, Payload). -/
structure Metric where
  Name : String
  Timestamp : Int
  Value : Float
  Labels : List (String × String)
  MType : MetricType
  Payload : List Nat

/-- protocol.BatchMetricsRequest: the batch envelope wire form. -/
structure BatchMetricsRequest where
  AgentId : String
  Timestamp : Int
  Metrics : List Metric

/-- processor.ProcessedMetric: the normalized sample held by the store.
Timestamp is an absolute instant in nanoseconds since the epoch. -/
structure ProcessedMetric where
  AgentID : String
  Timestamp : Int
  Name : String
  Value : Float
  Labels : List (String × String)
  MType : String
  RawType : MetricType
  Payload : List Nat

/-- processor.MetricError: the validation error carrying a message. -/
structure MetricError where
  Message : String
deriving DecidableEq

def ErrEmptyMetricName : MetricError := ⟨"metric name is empty"⟩

def ErrInvalidTimestamp : MetricError := ⟨"invalid timestamp"⟩

def ErrInvalidMetricType : MetricError := ⟨"invalid metric type"⟩

/-- processor.DefaultProcessor.validateMetric: name non-empty, timestamp
strictly positive, type within the enum bounds, checked in that order. -/
def validateMetric (m : Metric) : Option MetricError :=
  if m.Name = "" then some ErrEmptyMetricName
  else if m.Timestamp ≤ 0 then some ErrInvalidTimestamp
  else if m.MType < MetricType_CPU_USAGE ∨ MetricType_EBPF_RAW < m.MType then
    some ErrInvalidMetricType
  else none

/-- Two's-complement wrap of an integer into the signed 64-bit range: the
defined behavior of Go int64 arithmetic on overflow. -/
def int64Wrap (n : Int) : Int :=
  (n + 9223372036854775808) % 18446744073709551616 - 9223372036854775808

/-- processor.DefaultProcessor.ProcessSingleMetric: validate, convert the
epoch-millisecond timestamp via time.Unix with zero seconds and the
timestamp times a millisecond of nanoseconds — an int64 multiplication that
wraps (two's complement) when the product exceeds the int64 range — render
the type to its string form, and assemble the ProcessedMetric. -/
def ProcessSingleMetric (agentID : String) (m : Metric) :
    Except MetricError ProcessedMetric :=
  match validateMetric m with
  | some e => Except.error e
  | none =>
    Except.ok
      { AgentID := agentID
      , Timestamp := int64Wrap (m.Timestamp * 1000000)
      , Name := m.Name
      , Value := m.Value
      , Labels := m.Labels
      , MType := metricTypeString m.MType
      , RawType := m.MType
      , Payload := m.Payload }

/-- The loop body of processor.DefaultProcessor.ProcessBatchRequest: for each
metric of the batch, process it with the envelope agent id; on error, log and
continue with the next entry; on success, append the processed metric. -/
def processBatchLoop (agentId : String) : List Metric → List ProcessedMetric
  | [] => []
  | m :: rest =>
    match ProcessSingleMetric agentId m with
    | Except.error _ => processBatchLoop agentId rest
    | Except.ok pm => pm :: processBatchLoop agentId rest

/-- processor.DefaultProcessor.ProcessBatchRequest (its error result is
always nil in the source, so the embedding returns the list directly). -/
def ProcessBatchRequest (req : BatchMetricsRequest) : List ProcessedMetric :=
  processBatchLoop req.AgentId req.Metrics

/-- storage.MemoryStorage: insertion-ordered samples with a capacity bound
and an age bound (expireTime in nanoseconds). -/
structure MemoryStorage where
  metrics : List ProcessedMetric
  maxSize : Nat
  expireTime : Int

/-- storage.MemoryStorage.SaveMetrics: append the batch, then if the length
exceeds maxSize drop the oldest length-minus-maxSize entries. -/
def SaveMetrics (s : MemoryStorage) (batch : List ProcessedMetric) :
    MemoryStorage :=
  let all := s.metrics ++ batch
  if s.maxSize < all.length then
    { s with metrics := all.drop (all.length - s.maxSize) }
  else
    { s with metrics := all }

/-- The query loop shared by GetMetricsByAgentID, GetMetricsByType and
GetMetricsByTimeRange: iterate from the most-recently-inserted entry toward
the oldest (here: over the reversed list) while fewer than limit matches have
been collected, appending each entry satisfying the predicate. -/
def collectNewest (p : ProcessedMetric → Bool) :
    List ProcessedMetric → Nat → List ProcessedMetric
  | [], _ => []
  | _ :: _, 0 => []
  | m :: rest, Nat.succ n =>
    if p m then m :: collectNewest p rest n else collectNewest p rest (Nat.succ n)

/-- storage.MemoryStorage.GetMetricsByAgentID: newest-to-oldest scan keeping
entries with the given agent id, up to limit. The Go function begins with
make of capacity limit, which panics for a negative limit: none. -/
def GetMetricsByAgentID (s : MemoryStorage) (agentID : String) (limit : Int) :
    Option (List ProcessedMetric) :=
  if limit < 0 then none
  else some (collectNewest (fun m => m.AgentID == agentID) s.metrics.reverse limit.toNat)

/-- storage.MemoryStorage.GetMetricsByType: newest-to-oldest scan keeping
entries with the given type string, up to limit; negative limit panics. -/
def GetMetricsByType (s : MemoryStorage) (metricType : String) (limit : Int) :
    Option (List ProcessedMetric) :=
  if limit < 0 then none
  else some (collectNewest (fun m => m.MType == metricType) s.metrics.reverse limit.toNat)

/-- storage.MemoryStorage.GetMetricsByTimeRange: newest-to-oldest scan keeping
entries whose timestamp is after-or-equal tStart and before-or-equal tEnd,
up to limit; negative limit panics. -/
def GetMetricsByTimeRange (s : MemoryStorage) (tStart tEnd : Int) (limit : Int) :
    Option (List ProcessedMetric) :=
  if limit < 0 then none
  else
    some (collectNewest
      (fun m =>
        (decide (tStart < m.Timestamp) || decide (m.Timestamp = tStart)) &&
        (decide (m.Timestamp < tEnd) || decide (m.Timestamp = tEnd)))
      s.metrics.reverse limit.toNat)

/-- storage.MemoryStorage.GetLatestMetrics: clamp limit down to the current
length, then slice from length minus limit to the end. The Go slice
expression panics when its lower bound is negative or exceeds the length,
which happens exactly for a negative limit: none. -/
def GetLatestMetrics (s : MemoryStorage) (limit : Int) :
    Option (List ProcessedMetric) :=
  let lim := if (s.metrics.length : Int) < limit then (s.metrics.length : Int) else limit
  let startIdx := (s.metrics.length : Int) - lim
  if 0 ≤ startIdx ∧ startIdx ≤ (s.metrics.length : Int) then
    some (s.metrics.drop startIdx.toNat)
  else none

/-- The scan of storage.MemoryStorage.CleanExpired: index of the first entry
whose timestamp is strictly after expiredTime (the loop breaks at the first
match; none when no entry matches). -/
def firstFreshIdx (expiredTime : Int) : List ProcessedMetric → Option Nat
  | [] => none
  | m :: rest =>
    if expiredTime < m.Timestamp then some 0
    else (firstFreshIdx expiredTime rest).map (· + 1)

/-- storage.MemoryStorage.CleanExpired: compute expiredTime as now minus
expireTime, find the first fresh index (defaulting to 0 when no entry is
fresh), and drop the entries before it only when that index is positive. -/
def CleanExpired (s : MemoryStorage) (now : Int) : MemoryStorage :=
  let expiredTime := now - s.expireTime
  let firstValidIdx := (firstFreshIdx expiredTime s.metrics).getD 0
  if 0 < firstValidIdx then
    { s with metrics := s.metrics.drop firstValidIdx }
  else s

/-- The single-Metric branch of handleUniStream in the QUIC server: process
the metric with the empty agent id; on a processing error the source logs
the error but still dereferences the nil processedMetric pointer when
building the slice passed to SaveMetrics, a runtime panic: none. On success
the processed metric is saved. -/
def handleSingleMetric (st : MemoryStorage) (m : Metric) :
    Option MemoryStorage :=
  match ProcessSingleMetric "" m with
  | Except.error _ => none
  | Except.ok pm => some (SaveMetrics st [pm])

/-- The BatchMetricsRequest branch of handleUniStream: process the batch
(skipping invalid entries) and save the processed metrics. -/
def handleBatchRequest (st : MemoryStorage) (req : BatchMetricsRequest) :
    MemoryStorage :=
  SaveMetrics st (ProcessBatchRequest req)

/-- Concrete sample data: a metric frame with an empty name. -/
def emptyNameMetric : Metric := ⟨"", 1, 1, [], 0, []⟩

/-- Concrete sample data: a well-formed metric frame. -/
def okCpuMetric : Metric := ⟨"cpu", 100, 1, [], 0, []⟩

/-- Concrete sample data: a store whose single entry is far older than the
age bound at the evaluation instant used below. -/
def allExpiredStore : MemoryStorage :=
  ⟨[⟨"a1", 0, "cpu", 1, [], "CPU_USAGE", 0, []⟩], 10, 1000⟩

/-- Concrete sample data: normalized samples for store evaluations. -/
def pmCpu1 : ProcessedMetric := ⟨"a1", 1000000, "cpu", 1, [], "CPU_USAGE", 0, []⟩

def pmCpu2 : ProcessedMetric := ⟨"a1", 2000000, "cpu", 2, [], "CPU_USAGE", 0, []⟩

def pmMem3 : ProcessedMetric := ⟨"a2", 3000000, "mem", 3, [], "MEMORY_USAGE", 1, []⟩

/-- The newest-to-oldest query loop collects exactly the first limit entries,
in scan order, of those satisfying the predicate. -/
theorem collectNewest_eq_filter_take (p : ProcessedMetric → Bool) :
    ∀ (l : List ProcessedMetric) (n : Nat),
      collectNewest p l n = (l.filter p).take n
  | [], n => by simp [collectNewest]
  | _ :: _, 0 => by simp [collectNewest]
  | m :: rest, Nat.succ n => by
    by_cases h : p m
    · simp [collectNewest, h, List.filter_cons,
        collectNewest_eq_filter_take p rest n]
    · simp [collectNewest, h, List.filter_cons,
        collectNewest_eq_filter_take p rest (Nat.succ n)]

/-- SaveMetrics does not change the configured capacity bound. -/
theorem SaveMetrics_maxSize (s : MemoryStorage) (batch : List ProcessedMetric) :
    (SaveMetrics s batch).maxSize = s.maxSize := by
  unfold SaveMetrics
  dsimp only
  split <;> rfl

/-- A single SaveMetrics call, from any store state, leaves at most maxSize
entries. -/
theorem SaveMetrics_length_le (s : MemoryStorage) (batch : List ProcessedMetric) :
    (SaveMetrics s batch).metrics.length ≤ s.maxSize := by
  unfold SaveMetrics
  dsimp only
  split
  · next h => simp only [List.length_drop]; omega
  · next h =>
      show (s.metrics ++ batch).length ≤ s.maxSize
      omega

/-- When the scan of CleanExpired finds a fresh entry at index i, the list
dropped to i starts with a fresh entry, so a rescan finds index 0. -/
theorem firstFreshIdx_drop (e : Int) :
    ∀ (l : List ProcessedMetric) (i : Nat),
      firstFreshIdx e l = some i → firstFreshIdx e (l.drop i) = some 0
  | [], i => by simp [firstFreshIdx]
  | m :: rest, i => by
    intro hi
    rw [show firstFreshIdx e (m :: rest)
        = if e < m.Timestamp then some 0 else (firstFreshIdx e rest).map (· + 1)
      from rfl] at hi
    by_cases h : e < m.Timestamp
    · rw [if_pos h] at hi
      obtain rfl : (0 : Nat) = i := Option.some.inj hi
      simp [firstFreshIdx, h]
    · rw [if_neg h] at hi
      obtain ⟨j, hj, rfl⟩ : ∃ j, firstFreshIdx e rest = some j ∧ j + 1 = i := by
        cases hr : firstFreshIdx e rest with
        | none => rw [hr] at hi; simp at hi
        | some j => rw [hr] at hi; exact ⟨j, rfl, Option.some.inj hi⟩
      rw [List.drop_succ_cons]
      exact firstFreshIdx_drop e rest j hj

/-- The batch-processing loop keeps exactly the entries whose processing
succeeds, in order: it is the filterMap of per-entry processing. -/
theorem processBatchLoop_eq_filterMap (agentId : String) :
    ∀ ms : List Metric, processBatchLoop agentId ms
      = ms.filterMap (fun m => (ProcessSingleMetric agentId m).toOption)
  | [] => by simp [processBatchLoop]
  | m :: rest => by
    cases h : ProcessSingleMetric agentId m with
    | error e =>
      simp [processBatchLoop, h, List.filterMap_cons, Except.toOption,
        processBatchLoop_eq_filterMap agentId rest]
    | ok pm =>
      simp [processBatchLoop, h, List.filterMap_cons, Except.toOption,
        processBatchLoop_eq_filterMap agentId rest]

/-- The batch-processing loop emits one processed sample per entry that
passes validation and none for an entry that fails it. -/
theorem processBatchLoop_length (agentId : String) :
    ∀ ms : List Metric, (processBatchLoop agentId ms).length
      = (ms.filter (fun m => (validateMetric m).isNone)).length
  | [] => by simp [processBatchLoop]
  | m :: rest => by
    cases h : validateMetric m with
    | none =>
      have hok : ProcessSingleMetric agentId m = Except.ok
          ⟨agentId, int64Wrap (m.Timestamp * 1000000), m.Name, m.Value,
           m.Labels, metricTypeString m.MType, m.MType, m.Payload⟩ := by
        unfold ProcessSingleMetric
        rw [h]
      simp [processBatchLoop, hok, List.filter_cons, h,
        processBatchLoop_length agentId rest]
    | some e =>
      have herr : ProcessSingleMetric agentId m = Except.error e := by
        unfold ProcessSingleMetric
        rw [h]
      simp [processBatchLoop, herr, List.filter_cons, h,
        processBatchLoop_length agentId rest]

/-- A single write from any state leaves at most maxSize entries, hence after
any nonempty sequence of writes the length is bounded by maxSize. -/
theorem foldl_SaveMetrics_length_le (batches : List (List ProcessedMetric)) :
    ∀ (s : MemoryStorage), batches ≠ [] →
      (batches.foldl SaveMetrics s).metrics.length ≤ s.maxSize := by
  induction batches with
  | nil => intro s h; exact absurd rfl h
  | cons b rest ih =>
    intro s _
    rw [List.foldl_cons]
    cases rest with
    | nil => simpa using SaveMetrics_length_le s b
    | cons b2 r2 =>
      have h2 := ih (SaveMetrics s b) (by simp)
      rwa [SaveMetrics_maxSize] at h2

/-- Claim C1 (code defect): when a single-sample frame fails validation, the
handler logs the error but still dereferences the absent normalized result
while building the slice for SaveMetrics — a nil-pointer panic (none) — so
no guarded skip-and-continue happens as the claim requires. -/
theorem single_metric_validation_failure_crashes :
    validateMetric emptyNameMetric = some ErrEmptyMetricName ∧
    handleSingleMetric ⟨[], 10, 1000⟩ emptyNameMetric = none :=
  ⟨rfl, rfl⟩

/-- Claim C2 (code defect): on a store whose every entry is strictly older
than now minus expireTime, CleanExpired finds no fresh entry, its scan index
stays at its default 0, and it removes nothing — the store keeps its single
entry instead of becoming empty. -/
theorem cleanExpired_all_expired_leaves_store :
    (∀ pm ∈ allExpiredStore.metrics,
        pm.Timestamp < 1000000 - allExpiredStore.expireTime) ∧
    CleanExpired allExpiredStore 1000000 = allExpiredStore ∧
    (CleanExpired allExpiredStore 1000000).metrics.length = 1 := by
  refine ⟨?_, rfl, rfl⟩
  intro pm hpm
  simp only [allExpiredStore, List.mem_singleton] at hpm
  subst hpm
  decide

/-- Claim C3: the store length never exceeds maxSize after any write of any
sequence of writes, maxSize itself is preserved, and when a write overflows
the bound the surviving entries are exactly the most-recently-inserted
maxSize entries (a suffix of the appended sequence) in original order. -/
theorem store_capacity_invariant (s : MemoryStorage)
    (batch : List ProcessedMetric) :
    (SaveMetrics s batch).metrics.length ≤ s.maxSize ∧
    (SaveMetrics s batch).maxSize = s.maxSize ∧
    (∀ batches : List (List ProcessedMetric), batches ≠ [] →
      (batches.foldl SaveMetrics s).metrics.length ≤ s.maxSize) ∧
    (s.maxSize < (s.metrics ++ batch).length →
      ∃ dropped, s.metrics ++ batch = dropped ++ (SaveMetrics s batch).metrics ∧
        (SaveMetrics s batch).metrics.length = s.maxSize) := by
  refine ⟨SaveMetrics_length_le s batch, SaveMetrics_maxSize s batch,
    fun batches hne => foldl_SaveMetrics_length_le batches s hne, ?_⟩
  intro hover
  have hsm : (SaveMetrics s batch).metrics
      = (s.metrics ++ batch).drop ((s.metrics ++ batch).length - s.maxSize) := by
    unfold SaveMetrics
    dsimp only
    rw [if_pos hover]
  refine ⟨(s.metrics ++ batch).take ((s.metrics ++ batch).length - s.maxSize),
    ?_, ?_⟩
  · rw [hsm]
    exact (List.take_append_drop _ _).symm
  · rw [hsm, List.length_drop]
    omega

/-- Witness for C3 at a store of capacity 2 receiving three samples. -/
theorem store_capacity_invariant_witness :
    (SaveMetrics ⟨[], 2, 1000⟩ [pmCpu1, pmCpu2, pmMem3]).metrics.length ≤ 2 ∧
    (SaveMetrics ⟨[], 2, 1000⟩ [pmCpu1, pmCpu2, pmMem3]).maxSize = 2 ∧
    ([[pmCpu1], [pmCpu2], [pmMem3]].foldl SaveMetrics
        ⟨[], 2, 1000⟩).metrics.length ≤ 2 ∧
    (∃ dropped,
      (⟨[], 2, 1000⟩ : MemoryStorage).metrics ++ [pmCpu1, pmCpu2, pmMem3]
        = dropped ++ (SaveMetrics ⟨[], 2, 1000⟩ [pmCpu1, pmCpu2, pmMem3]).metrics ∧
      (SaveMetrics ⟨[], 2, 1000⟩ [pmCpu1, pmCpu2, pmMem3]).metrics.length = 2) := by
  have h := store_capacity_invariant ⟨[], 2, 1000⟩ [pmCpu1, pmCpu2, pmMem3]
  exact ⟨h.1, h.2.1, h.2.2.1 [[pmCpu1], [pmCpu2], [pmMem3]] (by simp),
    h.2.2.2 (by simp)⟩

/-- Claim C7: GetLatestMetrics with a limit exceeding the current size
returns all entries, in insertion order (oldest of the selection first),
without error. -/
theorem getLatest_limit_exceeds_size (s : MemoryStorage) (limit : Int)
    (h : (s.metrics.length : Int) < limit) :
    GetLatestMetrics s limit = some s.metrics := by
  simp [GetLatestMetrics, h]

/-- Witness for C7: a one-entry store queried with limit 7. -/
theorem getLatest_limit_exceeds_size_witness :
    GetLatestMetrics ⟨[pmCpu1], 10, 1000⟩ 7 = some [pmCpu1] :=
  getLatest_limit_exceeds_size ⟨[pmCpu1], 10, 1000⟩ 7 (by decide)

/-- Claim C9: CleanExpired is idempotent — run twice at the same instant with
no intervening writes, the second run changes nothing. -/
theorem cleanExpired_idempotent (s : MemoryStorage) (now : Int) :
    CleanExpired (CleanExpired s now) now = CleanExpired s now := by
  cases h : firstFreshIdx (now - s.expireTime) s.metrics with
  | none => simp [CleanExpired, h]
  | some i =>
    cases i with
    | zero => simp [CleanExpired, h]
    | succ j =>
      have h2 : firstFreshIdx (now - s.expireTime) (s.metrics.drop (j + 1))
          = some 0 := firstFreshIdx_drop _ _ _ h
      simp [CleanExpired, h, h2]

/-- Claim C4 counterexample: each query, called with limit minus one, hits a
Go runtime panic (make with a negative capacity for the field queries, a
slice lower bound past the length for GetLatestMetrics), modelled as none —
the queries are not total over every integer limit. -/
theorem query_negative_limit_fails :
    GetLatestMetrics ⟨[], 10, 1000⟩ (-1) = none ∧
    GetMetricsByAgentID ⟨[], 10, 1000⟩ "a1" (-1) = none ∧
    GetMetricsByType ⟨[], 10, 1000⟩ "CPU_USAGE" (-1) = none ∧
    GetMetricsByTimeRange ⟨[], 10, 1000⟩ 0 10 (-1) = none :=
  ⟨rfl, rfl, rfl, rfl⟩

/-- Claim C4 (amended): write and sweep are total over all their inputs
(SaveMetrics and CleanExpired are plain state-to-state functions of the
embedding), and every query is total for every nonnegative limit. -/
theorem store_ops_total_nonneg_limit (s : MemoryStorage)
    (agentID metricType : String) (tStart tEnd : Int) (limit : Int)
    (h : 0 ≤ limit) :
    (GetMetricsByAgentID s agentID limit).isSome ∧
    (GetMetricsByType s metricType limit).isSome ∧
    (GetMetricsByTimeRange s tStart tEnd limit).isSome ∧
    (GetLatestMetrics s limit).isSome := by
  have hn : ¬ limit < 0 := not_lt.mpr h
  refine ⟨?_, ?_, ?_, ?_⟩
  · simp [GetMetricsByAgentID, hn]
  · simp [GetMetricsByType, hn]
  · simp [GetMetricsByTimeRange, hn]
  · by_cases hlt : (s.metrics.length : Int) < limit
    · simp [GetLatestMetrics, hlt]
    · have hc : (0 : Int) ≤ (s.metrics.length : Int) - limit ∧
          (s.metrics.length : Int) - limit ≤ (s.metrics.length : Int) := by
        omega
      simp [GetLatestMetrics, if_neg hlt, hc]

/-- Witness for C4 (amended) at the boundary limit zero. -/
theorem store_ops_total_nonneg_limit_witness :
    (GetMetricsByAgentID ⟨[pmCpu1], 10, 1000⟩ "a1" 0).isSome ∧
    (GetMetricsByType ⟨[pmCpu1], 10, 1000⟩ "CPU_USAGE" 0).isSome ∧
    (GetMetricsByTimeRange ⟨[pmCpu1], 10, 1000⟩ 0 10 0).isSome ∧
    (GetLatestMetrics ⟨[pmCpu1], 10, 1000⟩ 0).isSome :=
  store_ops_total_nonneg_limit ⟨[pmCpu1], 10, 1000⟩ "a1" "CPU_USAGE" 0 10 0
    (by decide)

/-- Claim C5: for every batch envelope, entries are validated independently:
the processed output is exactly the per-entry successes in order (failures
are skipped), every entry that passes validation contributes a processed
sample to the output, the output has one sample per valid entry, and the
whole output is appended to the store by the batch write (shown here for
writes within capacity; capacity eviction is C3's concern). -/
theorem batch_partial_success (req : BatchMetricsRequest)
    (st : MemoryStorage) :
    ProcessBatchRequest req
      = req.Metrics.filterMap
          (fun m => (ProcessSingleMetric req.AgentId m).toOption) ∧
    (∀ m ∈ req.Metrics, validateMetric m = none →
      ∃ pm, ProcessSingleMetric req.AgentId m = Except.ok pm ∧
        pm ∈ ProcessBatchRequest req) ∧
    (ProcessBatchRequest req).length
      = (req.Metrics.filter (fun m => (validateMetric m).isNone)).length ∧
    (st.metrics.length + (ProcessBatchRequest req).length ≤ st.maxSize →
      (handleBatchRequest st req).metrics
        = st.metrics ++ ProcessBatchRequest req) := by
  have hfm := processBatchLoop_eq_filterMap req.AgentId req.Metrics
  refine ⟨hfm, ?_, processBatchLoop_length req.AgentId req.Metrics, ?_⟩
  · intro m hm hv
    have hok : ProcessSingleMetric req.AgentId m = Except.ok
        ⟨req.AgentId, int64Wrap (m.Timestamp * 1000000), m.Name, m.Value,
         m.Labels, metricTypeString m.MType, m.MType, m.Payload⟩ := by
      unfold ProcessSingleMetric
      rw [hv]
    refine ⟨_, hok, ?_⟩
    show _ ∈ ProcessBatchRequest req
    rw [show ProcessBatchRequest req = _ from hfm]
    exact List.mem_filterMap.mpr ⟨m, hm, by rw [hok]; rfl⟩
  · intro hcap
    unfold handleBatchRequest SaveMetrics
    dsimp only
    rw [if_neg (show ¬ st.maxSize
        < (st.metrics ++ ProcessBatchRequest req).length by
      rw [List.length_append]
      omega)]

/-- Witness for C5: the claim's concrete scenario, a batch holding one
empty-name entry and one valid entry, into an empty store: exactly one
sample, the valid one, comes out and lands in the store. -/
theorem batch_partial_success_witness :
    (ProcessBatchRequest ⟨"a9", 5, [emptyNameMetric, okCpuMetric]⟩).length
      = ([emptyNameMetric, okCpuMetric].filter
          (fun m => (validateMetric m).isNone)).length ∧
    ([emptyNameMetric, okCpuMetric].filter
        (fun m => (validateMetric m).isNone)).length = 1 ∧
    (∃ pm, ProcessSingleMetric "a9" okCpuMetric = Except.ok pm ∧
      pm ∈ ProcessBatchRequest ⟨"a9", 5, [emptyNameMetric, okCpuMetric]⟩) ∧
    (handleBatchRequest ⟨[], 10, 1000⟩
        ⟨"a9", 5, [emptyNameMetric, okCpuMetric]⟩).metrics
      = (⟨[], 10, 1000⟩ : MemoryStorage).metrics
        ++ ProcessBatchRequest ⟨"a9", 5, [emptyNameMetric, okCpuMetric]⟩ := by
  have h := batch_partial_success ⟨"a9", 5, [emptyNameMetric, okCpuMetric]⟩
    ⟨[], 10, 1000⟩
  exact ⟨h.2.2.1, by decide, h.2.1 okCpuMetric (by simp) rfl,
    h.2.2.2 (by decide)⟩

/-- Claim C6: each field query scans from the most-recently-inserted entry
toward the oldest, collects at most limit matches, and returns them
newest-first — the first limit elements of the reversed store filtered by
the field predicate — with inclusive bounds on both ends of the time range. -/
theorem queries_scan_newest_first (s : MemoryStorage)
    (agentID metricType : String) (tStart tEnd : Int) (limit : Int)
    (h : 0 < limit) :
    GetMetricsByAgentID s agentID limit
      = some ((s.metrics.reverse.filter
          (fun m => m.AgentID == agentID)).take limit.toNat) ∧
    GetMetricsByType s metricType limit
      = some ((s.metrics.reverse.filter
          (fun m => m.MType == metricType)).take limit.toNat) ∧
    GetMetricsByTimeRange s tStart tEnd limit
      = some ((s.metrics.reverse.filter
          (fun m => decide (tStart ≤ m.Timestamp) &&
            decide (m.Timestamp ≤ tEnd))).take limit.toNat) := by
  have hn : ¬ limit < 0 := by omega
  refine ⟨?_, ?_, ?_⟩
  · simp [GetMetricsByAgentID, hn, collectNewest_eq_filter_take]
  · simp [GetMetricsByType, hn, collectNewest_eq_filter_take]
  · simp only [GetMetricsByTimeRange, if_neg hn,
      collectNewest_eq_filter_take, Option.some.injEq]
    congr 1
    apply List.filter_congr
    intro m _
    simp only [← Bool.decide_or, ← Bool.decide_and]
    exact decide_eq_decide.mpr (by omega)

/-- Witness for C6 on a three-entry store. -/
theorem queries_scan_newest_first_witness :
    GetMetricsByAgentID ⟨[pmCpu1, pmCpu2, pmMem3], 10, 1000⟩ "a1" 5
      = some [pmCpu2, pmCpu1] ∧
    GetMetricsByType ⟨[pmCpu1, pmCpu2, pmMem3], 10, 1000⟩ "CPU_USAGE" 5
      = some [pmCpu2, pmCpu1] ∧
    GetMetricsByTimeRange ⟨[pmCpu1, pmCpu2, pmMem3], 10, 1000⟩
        1500000 3000000 5 = some [pmMem3, pmCpu2] := by
  have h := queries_scan_newest_first ⟨[pmCpu1, pmCpu2, pmMem3], 10, 1000⟩
    "a1" "CPU_USAGE" 1500000 3000000 5 (by decide)
  refine ⟨h.1.trans ?_, h.2.1.trans ?_, h.2.2.trans ?_⟩ <;> rfl

/-- Claim C8 counterexample: a wire timestamp above 9223372036854 ms passes
validation (it is strictly positive), but the int64 multiplication by one
million nanoseconds wraps, so the stored instant is a negative (pre-epoch)
value, not the wire integer interpreted as milliseconds since the epoch. -/
theorem timestamp_normalization_overflow :
    validateMetric ⟨"x", 10000000000000, 1, [], 0, []⟩ = none ∧
    ProcessSingleMetric "a1" ⟨"x", 10000000000000, 1, [], 0, []⟩ = Except.ok
      ⟨"a1", -8446744073709551616, "x", 1, [],
       metricTypeString 0, 0, []⟩ ∧
    (-8446744073709551616 : Int) ≠ 10000000000000 * 1000000 ∧
    (-8446744073709551616 : Int) < 0 :=
  ⟨rfl, rfl, by decide, by decide⟩

/-- Claim C8 (amended): validation applies its checks in order — empty name
first, then nonpositive timestamp, then out-of-range type — and on success
the normalized sample carries the wire timestamp times one million
nanoseconds wrapped to signed 64 bits (Go int64 multiplication), which
equals the wire integer interpreted as milliseconds since the epoch exactly
when that product fits in the int64 range (timestamp at most
9223372036854 ms); the type is rendered to its canonical string form. -/
theorem validate_order_and_normalization (agentID : String) (m : Metric) :
    (m.Name = "" → validateMetric m = some ErrEmptyMetricName) ∧
    (m.Name ≠ "" → m.Timestamp ≤ 0 →
      validateMetric m = some ErrInvalidTimestamp) ∧
    (m.Name ≠ "" → 0 < m.Timestamp →
      (m.MType < MetricType_CPU_USAGE ∨ MetricType_EBPF_RAW < m.MType) →
      validateMetric m = some ErrInvalidMetricType) ∧
    (m.Name ≠ "" → 0 < m.Timestamp → MetricType_CPU_USAGE ≤ m.MType →
      m.MType ≤ MetricType_EBPF_RAW →
      ProcessSingleMetric agentID m = Except.ok
        ⟨agentID, int64Wrap (m.Timestamp * 1000000), m.Name, m.Value,
         m.Labels, metricTypeString m.MType, m.MType, m.Payload⟩) ∧
    (0 < m.Timestamp → m.Timestamp ≤ 9223372036854 →
      int64Wrap (m.Timestamp * 1000000) = m.Timestamp * 1000000) := by
  refine ⟨?_, ?_, ?_, ?_, ?_⟩
  · intro h1
    unfold validateMetric
    rw [if_pos h1]
  · intro h1 h2
    unfold validateMetric
    rw [if_neg h1, if_pos h2]
  · intro h1 h2 h3
    unfold validateMetric
    rw [if_neg h1, if_neg (show ¬ m.Timestamp ≤ 0 by omega), if_pos h3]
  · intro h1 h2 h3 h4
    have hv : validateMetric m = none := by
      unfold validateMetric
      rw [if_neg h1, if_neg (show ¬ m.Timestamp ≤ 0 by omega),
        if_neg (show ¬ (m.MType < MetricType_CPU_USAGE ∨
          MetricType_EBPF_RAW < m.MType) by
            rw [not_or]
            exact ⟨not_lt.mpr h3, not_lt.mpr h4⟩)]
    unfold ProcessSingleMetric
    rw [hv]
  · intro h1 h2
    unfold int64Wrap
    omega

/-- Witness for C8 (amended): one input per branch of the validation order,
plus exactness of the conversion below the overflow threshold. -/
theorem validate_order_and_normalization_witness :
    validateMetric ⟨"", 0, 1, [], 99, []⟩ = some ErrEmptyMetricName ∧
    validateMetric ⟨"x", 0, 1, [], 99, []⟩ = some ErrInvalidTimestamp ∧
    validateMetric ⟨"x", 5, 1, [], 99, []⟩ = some ErrInvalidMetricType ∧
    ProcessSingleMetric "a1" ⟨"x", 5, 1, [], 3, []⟩ = Except.ok
      ⟨"a1", 5000000, "x", 1, [], metricTypeString 3, 3, []⟩ ∧
    int64Wrap (5 * 1000000) = (5 : Int) * 1000000 :=
  ⟨(validate_order_and_normalization "a1" ⟨"", 0, 1, [], 99, []⟩).1 rfl,
   (validate_order_and_normalization "a1" ⟨"x", 0, 1, [], 99, []⟩).2.1
     (by decide) (by decide),
   (validate_order_and_normalization "a1" ⟨"x", 5, 1, [], 99, []⟩).2.2.1
     (by decide) (by decide) (by decide),
   (validate_order_and_normalization "a1" ⟨"x", 5, 1, [], 3, []⟩).2.2.2.1
     (by decide) (by decide) (by decide) (by decide),
   (validate_order_and_normalization "a1" ⟨"x", 5, 1, [], 3, []⟩).2.2.2.2
     (by decide) (by decide)⟩

/-- Claim C10: a successfully validated single-sample frame is stored with
the empty string as agent identifier, and every agent query returns only
samples whose identifier equals the queried one — so only the empty-string
agent query can return such samples. -/
theorem single_metric_empty_agent_id (st : MemoryStorage) (m : Metric)
    (h : validateMetric m = none) :
    (∃ pm, handleSingleMetric st m = some (SaveMetrics st [pm]) ∧
      pm.AgentID = "") ∧
    (∀ (agentID : String) (limit : Int) (r : List ProcessedMetric),
      GetMetricsByAgentID st agentID limit = some r →
        ∀ x ∈ r, x.AgentID = agentID) := by
  constructor
  · refine ⟨⟨"", int64Wrap (m.Timestamp * 1000000), m.Name, m.Value, m.Labels,
      metricTypeString m.MType, m.MType, m.Payload⟩, ?_, rfl⟩
    unfold handleSingleMetric ProcessSingleMetric
    rw [h]
  · intro agentID limit r hr x hx
    unfold GetMetricsByAgentID at hr
    by_cases hn : limit < 0
    · rw [if_pos hn] at hr
      exact absurd hr (by simp)
    · rw [if_neg hn] at hr
      obtain rfl : collectNewest (fun pm => pm.AgentID == agentID)
          st.metrics.reverse limit.toNat = r := Option.some.inj hr
      rw [collectNewest_eq_filter_take] at hx
      have hx2 := List.take_subset _ _ hx
      exact beq_iff_eq.mp (List.mem_filter.mp hx2).2

/-- Witness for C10: a valid single-sample frame into an empty store. -/
theorem single_metric_empty_agent_id_witness :
    (∃ pm, handleSingleMetric ⟨[], 10, 1000⟩ okCpuMetric
        = some (SaveMetrics ⟨[], 10, 1000⟩ [pm]) ∧ pm.AgentID = "") ∧
    (∀ (agentID : String) (limit : Int) (r : List ProcessedMetric),
      GetMetricsByAgentID ⟨[], 10, 1000⟩ agentID limit = some r →
        ∀ x ∈ r, x.AgentID = agentID) :=
  single_metric_empty_agent_id ⟨[], 10, 1000⟩ okCpuMetric rfl

end KonAgent
